import Mathlib

/-!
Shallow embedding of the metrics storage engine of `metricsAndAlerting`
(`internal/storage`: `MemoryStorage`, its signature helper, update and
restore operations), together with theorems checking the natural-language
specification against it.

Modelling conventions:
* Go `int64` arithmetic is `Int` wrapped with `wrap64` where overflow can occur.
* Go `float64` values are modelled as `Rat`; the dyadic inputs used in the
  concrete theorems are exactly representable as `float64`, where rational and
  floating arithmetic agree.
* HMAC-SHA256 is abstracted as an explicit function parameter
  `hmacS : String → String → List Nat` (key, message → byte list); every
  theorem about signatures holds for an arbitrary such function.
* File contents read by `Restore` are a `List (Option Metric)`: one entry per
  line, `none` for a line that fails to decode as JSON; an unreadable or
  absent file is `none` at the outer `Option`.
* The synchronous-save outcome inside `Set`/`Add` is an explicit parameter
  `sv : Option Err` (the error returned by `Save`, if any).
-/

/-- Error kinds of `pkg/errorsstorage`, plus `FileError` for the `os` error
that `Restore`/`Save` return when the store file cannot be opened. -/
inductive Err where
  | InvalidName
  | InvalidType
  | UnknownType
  | InvalidValue
  | InvalidSignature
  | InvalidJSON
  | NotFound
  | Internal
  | FileError
deriving DecidableEq

/-- The configuration fields of `config.Config` consumed by `MemoryStorage`. -/
structure Config where
  StoreFile : String
  StoreInterval : Nat
  SecretKey : String
deriving DecidableEq

/-- The `Metrics` value object: `ID`, `MType`, optional `Delta` (counter),
optional `Value` (gauge), and the hex-encoded `Hash`. -/
structure Metric where
  ID : String
  MType : String
  Delta : Option Int
  Value : Option Rat
  Hash : String
deriving DecidableEq

/-- `MemoryStorage`: the slice of metrics plus the configuration.  The
`sync.Mutex` field is not part of the state; the source's `Lock`/`Unlock`
are exported pass-throughs and none of the operations below calls them. -/
structure MemoryStorage where
  metrics : List Metric
  cfg : Config
deriving DecidableEq

/-- A caller-supplied `interface\x7b\x7d` value: string, int64 or float64. -/
inductive GoValue where
  | str (s : String)
  | i (n : Int)
  | f (q : Rat)
deriving DecidableEq

/-- Two's-complement wrap into the `int64` range (2^63, 2^64 as literals). -/
def wrap64 (n : Int) : Int :=
  (n + 9223372036854775808) % 18446744073709551616 - 9223372036854775808

/-- `n` is representable as an `int64`. -/
def inRange64 (n : Int) : Prop :=
  -9223372036854775808 ≤ n ∧ n < 9223372036854775808

instance (n : Int) : Decidable (inRange64 n) := by
  unfold inRange64
  exact inferInstance

theorem wrap64_id {n : Int} (h : inRange64 n) : wrap64 n = n := by
  obtain ⟨h1, h2⟩ := h
  unfold wrap64
  rw [Int.emod_eq_of_lt (by omega) (by omega)]
  omega

/-- Replace the element at index `i` by `f` applied to it (used to model
in-place mutation of one slice element). -/
def updAt {α : Type} : List α → Nat → (α → α) → List α
  | [], _, _ => []
  | a :: l, 0, f => f a :: l
  | a :: l, n + 1, f => a :: updAt l n f

theorem updAt_length {α : Type} (l : List α) (i : Nat) (f : α → α) :
    (updAt l i f).length = l.length := by
  induction l generalizing i with
  | nil => rfl
  | cons a l ih =>
    cases i with
    | zero => rfl
    | succ j => simp [updAt, ih]

theorem get?_updAt_self {α : Type} (l : List α) (i : Nat) (f : α → α) :
    (updAt l i f).get? i = (l.get? i).map f := by
  induction l generalizing i with
  | nil => rfl
  | cons a l ih =>
    cases i with
    | zero => rfl
    | succ j => simpa [updAt] using ih j

theorem get?_updAt_ne {α : Type} (l : List α) (i j : Nat) (f : α → α) (h : j ≠ i) :
    (updAt l i f).get? j = l.get? j := by
  induction l generalizing i j with
  | nil => rfl
  | cons a l ih =>
    cases i with
    | zero =>
      cases j with
      | zero => exact absurd rfl h
      | succ k => rfl
    | succ i2 =>
      cases j with
      | zero => rfl
      | succ k => simpa [updAt] using ih i2 k (by omega)

/-- One hex digit (lowercase, as produced by `encoding/hex`). -/
def hexChar (n : Nat) : Char :=
  if n < 10 then Char.ofNat (48 + n) else Char.ofNat (87 + n)

/-- `hex.EncodeToString` over a byte list. -/
def hexEncode (bs : List Nat) : String :=
  String.mk (bs.foldr (fun b acc => hexChar (b / 16) :: hexChar (b % 16) :: acc) [])

/-- Decode one hex digit; `encoding/hex` accepts both cases. -/
def hexDigit (c : Char) : Option Nat :=
  if '0' ≤ c ∧ c ≤ '9' then some (c.toNat - 48)
  else if 'a' ≤ c ∧ c ≤ 'f' then some (c.toNat - 87)
  else if 'A' ≤ c ∧ c ≤ 'F' then some (c.toNat - 55)
  else none

/-- `hex.DecodeString` core: pairs of digits; odd length or a bad digit fails. -/
def hexPairs : List Char → Option (List Nat)
  | [] => some []
  | [_] => none
  | a :: b :: rest =>
    match hexDigit a, hexDigit b, hexPairs rest with
    | some x, some y, some tail => some ((x * 16 + y) :: tail)
    | _, _, _ => none

/-- `hex.DecodeString`. -/
def hexDecode (s : String) : Option (List Nat) :=
  hexPairs s.data

/-- Accumulate decimal digits; fails on a non-digit. -/
def digitsValAux : List Char → Nat → Option Nat
  | [], acc => some acc
  | c :: cs, acc =>
    if c.isDigit then digitsValAux cs (acc * 10 + (c.toNat - 48)) else none

/-- Value of a non-empty all-digit string. -/
def digitsListVal (cs : List Char) : Option Nat :=
  if cs = [] then none else digitsValAux cs 0

/-- Modelled from the spec: the repository's `ToInt64` helper (not under
`src/`) parses a base-10 integer string; a float string fails where an
integer is required.  This parses an optional sign followed by digits. -/
def parseIntStr (s : String) : Option Int :=
  match s.data with
  | '-' :: cs => (digitsListVal cs).map (fun n => -(n : Int))
  | '+' :: cs => (digitsListVal cs).map (fun n => (n : Int))
  | cs => (digitsListVal cs).map (fun n => (n : Int))

/-- Unsigned decimal with optional fractional part: digits, or
digits '.' digits with at least one digit overall. -/
def parseUnsigned (cs : List Char) : Option Rat :=
  let intPart := cs.takeWhile Char.isDigit
  let rest := cs.dropWhile Char.isDigit
  match rest with
  | [] =>
    if intPart = [] then none
    else (digitsValAux intPart 0).map (fun n => (n : Rat))
  | '.' :: frac =>
    if frac.all Char.isDigit ∧ (intPart ≠ [] ∨ frac ≠ []) then
      match digitsValAux intPart 0, digitsValAux frac 0 with
      | some a, some b => some ((a : Rat) + (b : Rat) / (10 : Rat) ^ frac.length)
      | _, _ => none
    else none
  | _ => none

/-- Modelled from the spec: the repository's `ToFloat64` helper (not under
`src/`) parses a decimal string as a float; a non-numeric string fails with
`InvalidValue`.  Sign then unsigned decimal. -/
def parseDec (s : String) : Option Rat :=
  match s.data with
  | '-' :: cs => (parseUnsigned cs).map (fun q => -q)
  | '+' :: cs => parseUnsigned cs
  | cs => parseUnsigned cs

/-- Modelled from the spec: `ToFloat64(input)` accepts string, integer, or
float representations; fails with `InvalidValue` if the input cannot be
parsed as a float. -/
def ToFloat64 : GoValue → Except Err Rat
  | .str s =>
    match parseDec s with
    | some q => .ok q
    | none => .error .InvalidValue
  | .i n => .ok (n : Rat)
  | .f q => .ok q

/-- Modelled from the spec: `ToInt64(input)` accepts string, integer, or
float representations; fails with `InvalidValue` if the input cannot be
parsed as the integer kind (a fractional value fails). -/
def ToInt64 : GoValue → Except Err Int
  | .str s =>
    match parseIntStr s with
    | some n => .ok n
    | none => .error .InvalidValue
  | .i n => .ok n
  | .f q => if q.den = 1 then .ok q.num else .error .InvalidValue

/-- Modelled from the spec: `createMetric(type, id)` creates the entry for a
previously-unseen identity, "seeded with an absent value/delta". -/
def createMetric (typeMetric id : String) : Metric :=
  { ID := id, MType := typeMetric, Delta := none, Value := none, Hash := "" }

/-- Left-pad a decimal string with zeros to `k` digits. -/
def padZeros (k : Nat) (s : String) : String :=
  String.mk (List.replicate (k - s.length) '0') ++ s

/-- Round to the nearest integer, ties to even (the rounding used by Go's
fixed-precision float formatting). -/
def roundHalfEven (q : Rat) : Int :=
  let f := q.floor
  let r := q - (f : Rat)
  if r < 1 / 2 then f
  else if 1 / 2 < r then f + 1
  else if f % 2 = 0 then f else f + 1

/-- Go's `fmt.Sprintf("%f", v)` on a float64: fixed-point decimal with
exactly six fractional digits, correctly rounded. -/
def goFormatF6 (q : Rat) : String :=
  let neg := q < 0
  let a := if q < 0 then -q else q
  let n := (roundHalfEven (a * 1000000)).toNat
  (if neg then "-" else "") ++ toString (n / 1000000) ++ "." ++ padZeros 6 (toString (n % 1000000))

/-- Smallest `k ≤ fuel + k0` with `10 ^ k` divisible by `den` (fuel-bounded
search; every float64 value has a terminating decimal expansion). -/
def tenPowDiv : Nat → Nat → Nat → Nat
  | 0, _, k => k
  | fuel + 1, den, k => if 10 ^ k % den = 0 then k else tenPowDiv fuel den (k + 1)

/-- The exact (shortest, no trailing zeros) decimal expansion of a
terminating rational: the unique decimal string denoting the value.  Under
the rational model this is `strconv.FormatFloat(v, 'f', -1, 64)`, the
shortest decimal that reproduces the value, and it is also the
"full-precision floating decimal, not scientific notation" that the spec's
Signer section prescribes. -/
def decimalExact (q : Rat) : String :=
  let neg := q < 0
  let a := if q < 0 then -q else q
  let k := tenPowDiv 1200 a.den 0
  let digits := a.num.toNat * 10 ^ k / a.den
  (if neg then "-" else "") ++ toString (digits / 10 ^ k) ++
    (if k = 0 then "" else "." ++ padZeros k (toString (digits % 10 ^ k)))

/-- The scan inside `MetricIdx`: index of the first entry whose `MType` and
`ID` both match. -/
def metricFind : List Metric → String → String → Except Err Nat
  | [], _, _ => .error .NotFound
  | m :: ms, t, n =>
    if m.MType = t ∧ m.ID = n then .ok 0
    else (metricFind ms t n).map (· + 1)

/-- `MemoryStorage.MetricIdx`: `InvalidType` on an empty type, `InvalidName`
on an empty id, otherwise a linear scan returning `NotFound` on a miss. -/
def metricIdx (l : List Metric) (typeMetric id : String) : Except Err Nat :=
  if typeMetric = "" then .error .InvalidType
  else if id = "" then .error .InvalidName
  else metricFind l typeMetric id

/-- The canonical string `src` built by `signatureMetric`:
`fmt.Sprintf("%s:%s:%d", ID, MType, *Delta)` for counters and
`fmt.Sprintf("%s:%s:%f", ID, MType, *Value)` for gauges; `InvalidValue`
when the field for the type is nil, `UnknownType` otherwise. -/
def canonicalString (m : Metric) : Except Err String :=
  match m.MType with
  | "counter" =>
    match m.Delta with
    | none => .error .InvalidValue
    | some d => .ok (m.ID ++ ":" ++ m.MType ++ ":" ++ toString d)
  | "gauge" =>
    match m.Value with
    | none => .error .InvalidValue
    | some v => .ok (m.ID ++ ":" ++ m.MType ++ ":" ++ goFormatF6 v)
  | _ => .error .UnknownType

/-- `signatureMetric(metric, key)`: empty key is a no-op returning an empty
code; otherwise HMAC-SHA256 (abstracted as `hmacS`) over the canonical
string.  Mirrors the Go convention of returning both the byte slice and the
error: on failure the slice is empty. -/
def signatureMetric (hmacS : String → String → List Nat) (m : Metric) (key : String) :
    List Nat × Option Err :=
  if key = "" then ([], none)
  else
    match canonicalString m with
    | .error e => ([], some e)
    | .ok src => (hmacS key src, none)

/-- `isStoreSync`: a store file is configured and the interval is zero. -/
def isStoreSync (cfg : Config) : Bool :=
  cfg.StoreFile ≠ "" && cfg.StoreInterval == 0

/-- The shared head of `Set`/`Add`: find the entry, or append a freshly
created one and use the last index (the append happens before the value is
validated, exactly as in the source). -/
def locateOrCreate (l : List Metric) (typeMetric id : String) : Nat × List Metric :=
  match metricIdx l typeMetric id with
  | .ok i => (i, l)
  | .error _ => (l.length, l ++ [createMetric typeMetric id])

/-- Accumulation of a counter delta: absent prior delta means the input
becomes the delta, otherwise int64 addition (`*delta += val`). -/
def deltaAdd : Option Int → Int → Int
  | none, v => v
  | some d, v => wrap64 (d + v)

/-- Accumulation of a gauge value: absent prior value means the input
becomes the value, otherwise addition (`*value += val`). -/
def valAdd : Option Rat → Rat → Rat
  | none, v => v
  | some w, v => w + v

/-- `st.metrics[idx].Hash = hex.EncodeToString(sign)` with the signature
recomputed from the entry itself (any signature error is discarded). -/
def hashUpd (hmacS : String → String → List Nat) (key : String) (m : Metric) : Metric :=
  { m with Hash := hexEncode (signatureMetric hmacS m key).fst }

/-- The gauge assignment of `Set`: overwrite `Value`. -/
def setValUpd (x : Rat) (m : Metric) : Metric :=
  { m with Value := some x }

/-- The counter assignment of `Set`: overwrite `Delta`. -/
def setDeltaUpd (v : Int) (m : Metric) : Metric :=
  { m with Delta := some v }

/-- The gauge assignment of `Add`: accumulate into `Value`. -/
def addValUpd (x : Rat) (m : Metric) : Metric :=
  { m with Value := some (valAdd m.Value x) }

/-- The counter assignment of `Add`: accumulate into `Delta`. -/
def addDeltaUpd (v : Int) (m : Metric) : Metric :=
  { m with Delta := some (deltaAdd m.Delta v) }

/-- The shared tail of `Set`/`Add`: recompute and store the signature hex
(ignoring any signature error), then save synchronously if configured;
`sv` is the outcome of that `Save`. -/
def finishWrite (hmacS : String → String → List Nat) (sv : Option Err)
    (st : MemoryStorage) (l : List Metric) (i : Nat) : MemoryStorage × Option Err :=
  let l2 := updAt l i (hashUpd hmacS st.cfg.SecretKey)
  let st2 := { st with metrics := l2 }
  if isStoreSync st.cfg then
    match sv with
    | some e => (st2, some e)
    | none => (st2, none)
  else (st2, none)

/-- `MemoryStorage.Set`: locate or create the entry, then overwrite `Value`
(gauge) or `Delta` (counter) with the converted input; conversion failure
returns the error with the (possibly appended-to) slice kept. -/
def setOp (hmacS : String → String → List Nat) (sv : Option Err) (st : MemoryStorage)
    (typeMetric id : String) (value : GoValue) : MemoryStorage × Option Err :=
  let p := locateOrCreate st.metrics typeMetric id
  match typeMetric with
  | "gauge" =>
    match ToFloat64 value with
    | .error e => ({ st with metrics := p.2 }, some e)
    | .ok v => finishWrite hmacS sv st (updAt p.2 p.1 (setValUpd v)) p.1
  | "counter" =>
    match ToInt64 value with
    | .error e => ({ st with metrics := p.2 }, some e)
    | .ok v => finishWrite hmacS sv st (updAt p.2 p.1 (setDeltaUpd v)) p.1
  | _ => ({ st with metrics := p.2 }, some .UnknownType)

/-- `MemoryStorage.Add`: locate or create the entry, then accumulate into
`Value` (gauge) or `Delta` (counter); conversion failure returns the error
with the (possibly appended-to) slice kept. -/
def addOp (hmacS : String → String → List Nat) (sv : Option Err) (st : MemoryStorage)
    (typeMetric id : String) (value : GoValue) : MemoryStorage × Option Err :=
  let p := locateOrCreate st.metrics typeMetric id
  match typeMetric with
  | "gauge" =>
    match ToFloat64 value with
    | .error e => ({ st with metrics := p.2 }, some e)
    | .ok v => finishWrite hmacS sv st (updAt p.2 p.1 (addValUpd v)) p.1
  | "counter" =>
    match ToInt64 value with
    | .error e => ({ st with metrics := p.2 }, some e)
    | .ok v => finishWrite hmacS sv st (updAt p.2 p.1 (addDeltaUpd v)) p.1
  | _ => ({ st with metrics := p.2 }, some .UnknownType)

/-- `MemoryStorage.Update`: empty name fails with `InvalidName`; gauge
dispatches to `Set`, counter to `Add`, anything else is `UnknownType`. -/
def updateOp (hmacS : String → String → List Nat) (sv : Option Err) (st : MemoryStorage)
    (typeMetric name : String) (value : GoValue) : MemoryStorage × Option Err :=
  if name = "" then (st, some .InvalidName)
  else
    match typeMetric with
    | "gauge" => setOp hmacS sv st typeMetric name value
    | "counter" => addOp hmacS sv st typeMetric name value
    | _ => (st, some .UnknownType)

/-- `MemoryStorage.Get`: every lookup failure (including the empty-name and
empty-type conditions reported by `MetricIdx`) is mapped to `NotFound`;
values format as shortest decimal (gauge) or base-10 integer (counter). -/
def getOp (st : MemoryStorage) (typeMetric id : String) : Except Err String :=
  match metricIdx st.metrics typeMetric id with
  | .error _ => .error .NotFound
  | .ok i =>
    match st.metrics.get? i with
    | none => .error .NotFound
    | some m =>
      match m.MType with
      | "gauge" =>
        match m.Value with
        | some v => .ok (decimalExact v)
        | none => .error .NotFound
      | "counter" =>
        match m.Delta with
        | some d => .ok (toString d)
        | none => .error .NotFound
      | _ => .error .NotFound

/-- The in-place merge of `Restore`'s duplicate-identity branch: only the
`Delta` and `Value` fields of the existing entry are overwritten. -/
def mergeUpd (metric old : Metric) : Metric :=
  { old with Delta := metric.Delta, Value := metric.Value }

/-- The per-line body of `Restore`'s scan loop: a line that failed to decode
is skipped; a decoded metric whose identity is already present has only its
`Delta`/`Value` overwritten; an unseen identity is appended; any other
`MetricIdx` error is logged and the line skipped. -/
def restoreStep (acc : List Metric) (line : Option Metric) : List Metric :=
  match line with
  | none => acc
  | some metric =>
    match metricIdx acc metric.MType metric.ID with
    | .ok i => updAt acc i (mergeUpd metric)
    | .error e => if e = .NotFound then acc ++ [metric] else acc

/-- `MemoryStorage.Restore`: the in-memory slice is reset to empty first;
then, if the file cannot be opened, the error is returned (with the slice
left cleared); otherwise every line is folded through `restoreStep` and no
error is ever returned. -/
def restoreOp (st : MemoryStorage) (file : Option (List (Option Metric))) :
    MemoryStorage × Option Err :=
  let st2 := { st with metrics := [] }
  match file with
  | none => (st2, some Err.FileError)
  | some lines => ({ st2 with metrics := lines.foldl restoreStep [] }, none)

/-- `UpdateJSON`'s dispatch after (optional) signature verification: gauge
requires `Value`, counter requires `Delta`, and the same `Update` entry
point is applied. -/
def dispatchMetric (hmacS : String → String → List Nat) (sv : Option Err)
    (st : MemoryStorage) (m : Metric) : MemoryStorage × Option Err :=
  match m.MType with
  | "gauge" =>
    match m.Value with
    | none => (st, some .InvalidValue)
    | some v => updateOp hmacS sv st m.MType m.ID (GoValue.f v)
  | "counter" =>
    match m.Delta with
    | none => (st, some .InvalidValue)
    | some d => updateOp hmacS sv st m.MType m.ID (GoValue.i d)
  | _ => (st, some .UnknownType)

/-- `MemoryStorage.UpdateJSON`: decode the payload (failure is
`InvalidJSON`); with a non-empty key, recompute the signature (an error
here is only logged, leaving an empty code), hex-decode the payload's hash
(failure is `InvalidSignature`), compare byte-wise (mismatch is
`InvalidSignature`); then dispatch. -/
def updateJSON (hmacS : String → String → List Nat) (sv : Option Err)
    (st : MemoryStorage) (payload : Except Unit Metric) : MemoryStorage × Option Err :=
  match payload with
  | .error _ => (st, some .InvalidJSON)
  | .ok metric =>
    if st.cfg.SecretKey = "" then dispatchMetric hmacS sv st metric
    else
      match hexDecode metric.Hash with
      | none => (st, some .InvalidSignature)
      | some hash =>
        if (signatureMetric hmacS metric st.cfg.SecretKey).fst = hash then
          dispatchMetric hmacS sv st metric
        else (st, some .InvalidSignature)

/-- The `Delta` of the entry found for `(typeMetric, id)`, if any. -/
def deltaFound (st : MemoryStorage) (typeMetric id : String) : Option Int :=
  match metricIdx st.metrics typeMetric id with
  | .error _ => none
  | .ok i =>
    match st.metrics.get? i with
    | none => none
    | some m => m.Delta

/-- Prior delta with "absent treated as zero". -/
def deltaOr0 (st : MemoryStorage) (typeMetric id : String) : Int :=
  (deltaFound st typeMetric id).getD 0

/-- The `Value` of the entry found for `(typeMetric, id)`, if any. -/
def valueFound (st : MemoryStorage) (typeMetric id : String) : Option Rat :=
  match metricIdx st.metrics typeMetric id with
  | .error _ => none
  | .ok i =>
    match st.metrics.get? i with
    | none => none
    | some m => m.Value

/-- Folding a list of counter `Add`s (int64 inputs, save succeeding) over a
store. -/
def addAllCounter (hmacS : String → String → List Nat) (st : MemoryStorage)
    (n : String) (vs : List Int) : MemoryStorage :=
  vs.foldl (fun s v => (addOp hmacS none s "counter" n (GoValue.i v)).fst) st

/-- Each input and each running sum stays inside the int64 range. -/
def sumsOK : Int → List Int → Prop
  | _, [] => True
  | d, v :: vs => inRange64 v ∧ inRange64 (d + v) ∧ sumsOK (d + v) vs

instance instDecSumsOK : (d : Int) → (vs : List Int) → Decidable (sumsOK d vs)
  | _, [] => .isTrue trivial
  | d, v :: vs => by
    unfold sumsOK
    have := instDecSumsOK (d + v) vs
    exact inferInstance

/-- Interleaving model of the counter branch of `Add` (the unguarded
`*st.metrics[idx].Delta += val` read-modify-write): each of two threads
first reads the shared delta into a local, then writes back local plus its
input.  There is no lock step because `Add` takes no lock. -/
structure RaceState where
  shared : Int
  loc1 : Option Int
  loc2 : Option Int
  done1 : Bool
  done2 : Bool

/-- One scheduler step: `who = true` runs thread 1, `false` runs thread 2. -/
def raceStep (v1 v2 : Int) (s : RaceState) (who : Bool) : RaceState :=
  if who then
    match s.loc1, s.done1 with
    | none, _ => { s with loc1 := some s.shared }
    | some a, false => { s with shared := wrap64 (a + v1), done1 := true }
    | some _, true => s
  else
    match s.loc2, s.done2 with
    | none, _ => { s with loc2 := some s.shared }
    | some a, false => { s with shared := wrap64 (a + v2), done2 := true }
    | some _, true => s

/-- Run two racing `Add`s with inputs `v1`, `v2` from prior delta `d` under
schedule `sched`; result is the final shared delta. -/
def raceRun (v1 v2 : Int) (sched : List Bool) (d : Int) : Int :=
  (sched.foldl (raceStep v1 v2) ⟨d, none, none, false, false⟩).shared

/-- A concrete stand-in for HMAC-SHA256 used by the closed witness
theorems; the general theorems quantify over the function. -/
def hmacToy (key msg : String) : List Nat :=
  [(key.length + msg.length) % 256]

/-- Persistence-disabled configuration used by concrete examples. -/
def cfg0 : Config := { StoreFile := "", StoreInterval := 0, SecretKey := "" }

/-- Configuration with signing key "k" used by concrete examples. -/
def cfgK : Config := { StoreFile := "", StoreInterval := 0, SecretKey := "k" }

/-- Empty store, no signing. -/
def st0 : MemoryStorage := { metrics := [], cfg := cfg0 }

/-- Empty store with signing key "k". -/
def stK : MemoryStorage := { metrics := [], cfg := cfgK }

theorem metricFind_ok_get {l : List Metric} {t n : String} {i : Nat}
    (h : metricFind l t n = .ok i) :
    ∃ m, l.get? i = some m ∧ m.MType = t ∧ m.ID = n := by
  induction l generalizing i with
  | nil => simp [metricFind] at h
  | cons a l ih =>
    rw [metricFind] at h
    by_cases ha : a.MType = t ∧ a.ID = n
    · rw [if_pos ha] at h
      cases h
      exact ⟨a, rfl, ha.1, ha.2⟩
    · rw [if_neg ha] at h
      cases hf : metricFind l t n with
      | error e => rw [hf] at h; simp [Except.map] at h
      | ok j =>
        rw [hf] at h
        simp only [Except.map] at h
        cases h
        obtain ⟨m, hm, h1, h2⟩ := ih hf
        exact ⟨m, by simpa using hm, h1, h2⟩

theorem metricFind_append {l : List Metric} {t n : String} {e : Err} (c : Metric)
    (h : metricFind l t n = .error e) (h1 : c.MType = t) (h2 : c.ID = n) :
    metricFind (l ++ [c]) t n = .ok l.length := by
  induction l with
  | nil => simp [metricFind, h1, h2]
  | cons a l ih =>
    rw [metricFind] at h
    by_cases ha : a.MType = t ∧ a.ID = n
    · rw [if_pos ha] at h; cases h
    · rw [if_neg ha] at h
      have hf : metricFind l t n = .error e := by
        cases hx : metricFind l t n with
        | error e2 => rw [hx] at h; simpa [Except.map] using h
        | ok j => rw [hx] at h; simp [Except.map] at h
      show metricFind (a :: (l ++ [c])) t n = _
      rw [metricFind, if_neg ha, ih hf]
      simp [Except.map, List.length_cons]

theorem metricFind_updAt {l : List Metric} {t n : String} (i : Nat) (f : Metric → Metric)
    (hf : ∀ m, (f m).MType = m.MType ∧ (f m).ID = m.ID) :
    metricFind (updAt l i f) t n = metricFind l t n := by
  induction l generalizing i with
  | nil => rfl
  | cons a l ih =>
    cases i with
    | zero =>
      show metricFind (f a :: l) t n = metricFind (a :: l) t n
      rw [metricFind, metricFind, (hf a).1, (hf a).2]
    | succ j =>
      show metricFind (a :: updAt l j f) t n = metricFind (a :: l) t n
      rw [metricFind, metricFind, ih j]

theorem metricIdx_ok {l : List Metric} {t n : String} {i : Nat}
    (h : metricIdx l t n = .ok i) :
    metricFind l t n = .ok i ∧ t ≠ "" ∧ n ≠ "" := by
  unfold metricIdx at h
  by_cases h1 : t = ""
  · rw [if_pos h1] at h; cases h
  · rw [if_neg h1] at h
    by_cases h2 : n = ""
    · rw [if_pos h2] at h; cases h
    · rw [if_neg h2] at h; exact ⟨h, h1, h2⟩

theorem hashUpd_pres (hmacS : String → String → List Nat) (key : String) :
    ∀ m, (hashUpd hmacS key m).MType = m.MType ∧ (hashUpd hmacS key m).ID = m.ID :=
  fun _ => ⟨rfl, rfl⟩

theorem addDeltaUpd_pres (v : Int) :
    ∀ m, (addDeltaUpd v m).MType = m.MType ∧ (addDeltaUpd v m).ID = m.ID :=
  fun _ => ⟨rfl, rfl⟩

theorem addValUpd_pres (x : Rat) :
    ∀ m, (addValUpd x m).MType = m.MType ∧ (addValUpd x m).ID = m.ID :=
  fun _ => ⟨rfl, rfl⟩

theorem finishWrite_none (hmacS : String → String → List Nat) (st : MemoryStorage)
    (l : List Metric) (i : Nat) :
    finishWrite hmacS none st l i =
      ({ st with metrics := updAt l i (hashUpd hmacS st.cfg.SecretKey) }, none) := by
  unfold finishWrite
  split
  · rfl
  · rfl

theorem addOp_counter_int (hmacS : String → String → List Nat) (sv : Option Err)
    (st : MemoryStorage) (n : String) (v : Int) :
    addOp hmacS sv st "counter" n (GoValue.i v) =
      finishWrite hmacS sv st
        (updAt (locateOrCreate st.metrics "counter" n).2 (locateOrCreate st.metrics "counter" n).1
          (addDeltaUpd v))
        (locateOrCreate st.metrics "counter" n).1 := rfl

theorem addOp_gauge_rat (hmacS : String → String → List Nat) (sv : Option Err)
    (st : MemoryStorage) (n : String) (x : Rat) :
    addOp hmacS sv st "gauge" n (GoValue.f x) =
      finishWrite hmacS sv st
        (updAt (locateOrCreate st.metrics "gauge" n).2 (locateOrCreate st.metrics "gauge" n).1
          (addValUpd x))
        (locateOrCreate st.metrics "gauge" n).1 := rfl


theorem deltaFound_mk {l : List Metric} {c : Config} {t n : String} {i : Nat} {m : Metric}
    (h1 : metricIdx l t n = .ok i) (h2 : l.get? i = some m) :
    deltaFound ⟨l, c⟩ t n = m.Delta := by
  simp only [deltaFound, h1, h2]

theorem valueFound_mk {l : List Metric} {c : Config} {t n : String} {i : Nat} {m : Metric}
    (h1 : metricIdx l t n = .ok i) (h2 : l.get? i = some m) :
    valueFound ⟨l, c⟩ t n = m.Value := by
  simp only [valueFound, h1, h2]

theorem deltaFound_eq {st : MemoryStorage} {t n : String} {i : Nat} {m : Metric}
    (h1 : metricIdx st.metrics t n = .ok i) (h2 : st.metrics.get? i = some m) :
    deltaFound st t n = m.Delta := by
  simp only [deltaFound, h1, h2]

theorem valueFound_eq {st : MemoryStorage} {t n : String} {i : Nat} {m : Metric}
    (h1 : metricIdx st.metrics t n = .ok i) (h2 : st.metrics.get? i = some m) :
    valueFound st t n = m.Value := by
  simp only [valueFound, h1, h2]

theorem deltaFound_err {st : MemoryStorage} {t n : String} {e : Err}
    (h : metricIdx st.metrics t n = .error e) :
    deltaFound st t n = none := by
  simp only [deltaFound, h]

theorem valueFound_err {st : MemoryStorage} {t n : String} {e : Err}
    (h : metricIdx st.metrics t n = .error e) :
    valueFound st t n = none := by
  simp only [valueFound, h]

theorem add_counter_step (hmacS : String → String → List Nat) (st : MemoryStorage)
    (n : String) (v : Int) (hn : n ≠ "") (hv : inRange64 v) :
    (addOp hmacS none st "counter" n (GoValue.i v)).snd = none
    ∧ deltaFound (addOp hmacS none st "counter" n (GoValue.i v)).fst "counter" n
        = some (wrap64 (deltaOr0 st "counter" n + v)) := by
  rw [addOp_counter_int, finishWrite_none]
  refine ⟨rfl, ?_⟩
  cases hIdx : metricIdx st.metrics "counter" n with
  | ok i =>
    have hP : locateOrCreate st.metrics "counter" n = (i, st.metrics) := by
      unfold locateOrCreate; rw [hIdx]
    rw [hP]
    dsimp only
    obtain ⟨hf, -, -⟩ := metricIdx_ok hIdx
    obtain ⟨m, hm, hmt, hmi⟩ := metricFind_ok_get hf
    have hIdx2 : metricIdx
        (updAt (updAt st.metrics i (addDeltaUpd v)) i (hashUpd hmacS st.cfg.SecretKey))
        "counter" n = .ok i := by
      unfold metricIdx
      rw [if_neg (by decide : ¬("counter" = "")), if_neg hn,
        metricFind_updAt _ _ (hashUpd_pres hmacS st.cfg.SecretKey),
        metricFind_updAt _ _ (addDeltaUpd_pres v), hf]
    have hg : (updAt (updAt st.metrics i (addDeltaUpd v)) i (hashUpd hmacS st.cfg.SecretKey)).get? i
        = some (hashUpd hmacS st.cfg.SecretKey (addDeltaUpd v m)) := by
      rw [get?_updAt_self, get?_updAt_self, hm]; rfl
    rw [deltaFound_mk hIdx2 hg]
    have hd : deltaOr0 st "counter" n = m.Delta.getD 0 := by
      unfold deltaOr0
      rw [deltaFound_eq hIdx hm]
    rw [hd]
    show some (deltaAdd m.Delta v) = some (wrap64 (m.Delta.getD 0 + v))
    cases hD : m.Delta with
    | none =>
      show some v = some (wrap64 ((0 : Int) + v))
      rw [zero_add, wrap64_id hv]
    | some d => rfl
  | error e =>
    have hP : locateOrCreate st.metrics "counter" n
        = (st.metrics.length, st.metrics ++ [createMetric "counter" n]) := by
      unfold locateOrCreate; rw [hIdx]
    rw [hP]
    dsimp only
    have hf : metricFind st.metrics "counter" n = .error e := by
      unfold metricIdx at hIdx
      rw [if_neg (by decide : ¬("counter" = "")), if_neg hn] at hIdx
      exact hIdx
    have happ := metricFind_append (createMetric "counter" n) hf rfl rfl
    have hIdx2 : metricIdx
        (updAt (updAt (st.metrics ++ [createMetric "counter" n]) st.metrics.length (addDeltaUpd v))
          st.metrics.length (hashUpd hmacS st.cfg.SecretKey))
        "counter" n = .ok st.metrics.length := by
      unfold metricIdx
      rw [if_neg (by decide : ¬("counter" = "")), if_neg hn,
        metricFind_updAt _ _ (hashUpd_pres hmacS st.cfg.SecretKey),
        metricFind_updAt _ _ (addDeltaUpd_pres v), happ]
    have hg : (updAt (updAt (st.metrics ++ [createMetric "counter" n]) st.metrics.length (addDeltaUpd v))
          st.metrics.length (hashUpd hmacS st.cfg.SecretKey)).get? st.metrics.length
        = some (hashUpd hmacS st.cfg.SecretKey (addDeltaUpd v (createMetric "counter" n))) := by
      rw [get?_updAt_self, get?_updAt_self, List.get?_concat_length]; rfl
    rw [deltaFound_mk hIdx2 hg]
    have hd : deltaOr0 st "counter" n = 0 := by
      unfold deltaOr0
      rw [deltaFound_err hIdx]
      rfl
    rw [hd]
    show some v = some (wrap64 ((0 : Int) + v))
    rw [zero_add, wrap64_id hv]

theorem add_gauge_step (hmacS : String → String → List Nat) (st : MemoryStorage)
    (n : String) (x : Rat) (hn : n ≠ "") :
    (addOp hmacS none st "gauge" n (GoValue.f x)).snd = none
    ∧ valueFound (addOp hmacS none st "gauge" n (GoValue.f x)).fst "gauge" n
        = some ((valueFound st "gauge" n).getD 0 + x) := by
  rw [addOp_gauge_rat, finishWrite_none]
  refine ⟨rfl, ?_⟩
  cases hIdx : metricIdx st.metrics "gauge" n with
  | ok i =>
    have hP : locateOrCreate st.metrics "gauge" n = (i, st.metrics) := by
      unfold locateOrCreate; rw [hIdx]
    rw [hP]
    dsimp only
    obtain ⟨hf, -, -⟩ := metricIdx_ok hIdx
    obtain ⟨m, hm, hmt, hmi⟩ := metricFind_ok_get hf
    have hIdx2 : metricIdx
        (updAt (updAt st.metrics i (addValUpd x)) i (hashUpd hmacS st.cfg.SecretKey))
        "gauge" n = .ok i := by
      unfold metricIdx
      rw [if_neg (by decide : ¬("gauge" = "")), if_neg hn,
        metricFind_updAt _ _ (hashUpd_pres hmacS st.cfg.SecretKey),
        metricFind_updAt _ _ (addValUpd_pres x), hf]
    have hg : (updAt (updAt st.metrics i (addValUpd x)) i (hashUpd hmacS st.cfg.SecretKey)).get? i
        = some (hashUpd hmacS st.cfg.SecretKey (addValUpd x m)) := by
      rw [get?_updAt_self, get?_updAt_self, hm]; rfl
    rw [valueFound_mk hIdx2 hg]
    have hd : valueFound st "gauge" n = m.Value := valueFound_eq hIdx hm
    rw [hd]
    show some (valAdd m.Value x) = some (m.Value.getD 0 + x)
    cases hV : m.Value with
    | none =>
      show some x = some ((0 : Rat) + x)
      rw [zero_add]
    | some w => rfl
  | error e =>
    have hP : locateOrCreate st.metrics "gauge" n
        = (st.metrics.length, st.metrics ++ [createMetric "gauge" n]) := by
      unfold locateOrCreate; rw [hIdx]
    rw [hP]
    dsimp only
    have hf : metricFind st.metrics "gauge" n = .error e := by
      unfold metricIdx at hIdx
      rw [if_neg (by decide : ¬("gauge" = "")), if_neg hn] at hIdx
      exact hIdx
    have happ := metricFind_append (createMetric "gauge" n) hf rfl rfl
    have hIdx2 : metricIdx
        (updAt (updAt (st.metrics ++ [createMetric "gauge" n]) st.metrics.length (addValUpd x))
          st.metrics.length (hashUpd hmacS st.cfg.SecretKey))
        "gauge" n = .ok st.metrics.length := by
      unfold metricIdx
      rw [if_neg (by decide : ¬("gauge" = "")), if_neg hn,
        metricFind_updAt _ _ (hashUpd_pres hmacS st.cfg.SecretKey),
        metricFind_updAt _ _ (addValUpd_pres x), happ]
    have hg : (updAt (updAt (st.metrics ++ [createMetric "gauge" n]) st.metrics.length (addValUpd x))
          st.metrics.length (hashUpd hmacS st.cfg.SecretKey)).get? st.metrics.length
        = some (hashUpd hmacS st.cfg.SecretKey (addValUpd x (createMetric "gauge" n))) := by
      rw [get?_updAt_self, get?_updAt_self, List.get?_concat_length]; rfl
    rw [valueFound_mk hIdx2 hg]
    have hd : valueFound st "gauge" n = none := valueFound_err hIdx
    rw [hd]
    show some x = some ((0 : Rat) + x)
    rw [zero_add]

theorem setOp_gauge_rat (hmacS : String → String → List Nat) (sv : Option Err)
    (st : MemoryStorage) (n : String) (x : Rat) :
    setOp hmacS sv st "gauge" n (GoValue.f x) =
      finishWrite hmacS sv st
        (updAt (locateOrCreate st.metrics "gauge" n).2 (locateOrCreate st.metrics "gauge" n).1
          (setValUpd x))
        (locateOrCreate st.metrics "gauge" n).1 := rfl

theorem getOp_counter {st : MemoryStorage} {n : String} {d : Int}
    (h : deltaFound st "counter" n = some d) :
    getOp st "counter" n = .ok (toString d) := by
  cases hIdx : metricIdx st.metrics "counter" n with
  | error e =>
    rw [deltaFound_err hIdx] at h
    cases h
  | ok i =>
    cases hm : st.metrics.get? i with
    | none =>
      have hnone : deltaFound st "counter" n = none := by
        simp only [deltaFound, hIdx, hm]
      rw [hnone] at h
      cases h
    | some m =>
      have hD : m.Delta = some d := by
        rw [deltaFound_eq hIdx hm] at h
        exact h
      obtain ⟨hf, -, -⟩ := metricIdx_ok hIdx
      obtain ⟨m2, hm2, hmt, hmi⟩ := metricFind_ok_get hf
      rw [hm] at hm2
      have hmm : m2 = m := (Option.some.inj hm2).symm
      subst hmm
      simp only [getOp, hIdx, hm, hmt, hD]

theorem addAll_spec (hmacS : String → String → List Nat) (n : String) (hn : n ≠ "")
    (vs : List Int) :
    ∀ st : MemoryStorage, sumsOK (deltaOr0 st "counter" n) vs →
      deltaOr0 (addAllCounter hmacS st n vs) "counter" n = deltaOr0 st "counter" n + vs.sum
      ∧ (vs ≠ [] → deltaFound (addAllCounter hmacS st n vs) "counter" n
          = some (deltaOr0 st "counter" n + vs.sum)) := by
  induction vs with
  | nil =>
    intro st _
    exact ⟨by simp [addAllCounter], fun h => absurd rfl h⟩
  | cons v vs ih =>
    intro st hOK
    obtain ⟨hv, hdv, hrest⟩ := hOK
    have hstep := add_counter_step hmacS st n v hn hv
    set st1 := (addOp hmacS none st "counter" n (GoValue.i v)).fst with hst1
    have hDF1 : deltaFound st1 "counter" n = some (deltaOr0 st "counter" n + v) := by
      rw [hstep.2, wrap64_id hdv]
    have hD1 : deltaOr0 st1 "counter" n = deltaOr0 st "counter" n + v := by
      unfold deltaOr0
      rw [hDF1]
      rfl
    have hfold : addAllCounter hmacS st n (v :: vs) = addAllCounter hmacS st1 n vs := rfl
    have ih2 := ih st1 (by rw [hD1]; exact hrest)
    constructor
    · rw [hfold, ih2.1, hD1, List.sum_cons, add_assoc]
    · intro _
      rw [hfold]
      by_cases hvs : vs = []
      · subst hvs
        simp only [addAllCounter, List.foldl_nil, List.sum_cons, List.sum_nil, add_zero]
        exact hDF1
      · have h2 := ih2.2 hvs
        rw [h2, hD1, List.sum_cons, add_assoc]

/-- C6: counter accumulation.  Each successful `Add` of an int64 input on a
counter sets the stored delta to the prior delta plus the input (an absent
prior delta counts as zero, and a missing entry is created first); hence a
sequence of `Add`s whose running sums stay in the int64 range ends with
delta equal to the starting delta plus the sum, and `Get` then returns that
sum formatted in base 10. -/
theorem counter_accumulation (hmacS : String → String → List Nat) (st : MemoryStorage)
    (n : String) (vs : List Int) (hn : n ≠ "")
    (hs : sumsOK (deltaOr0 st "counter" n) vs) :
    deltaOr0 (addAllCounter hmacS st n vs) "counter" n = deltaOr0 st "counter" n + vs.sum
    ∧ (vs ≠ [] → getOp (addAllCounter hmacS st n vs) "counter" n
        = .ok (toString (deltaOr0 st "counter" n + vs.sum))) :=
  have h := addAll_spec hmacS n hn vs st hs
  ⟨h.1, fun hvs => getOp_counter (h.2 hvs)⟩

/-- Witness for C6 at the spec's own example: `Add 5` then `Add 3` on an
empty store, then `Get` returns "8". -/
theorem counter_accumulation_witness :
    deltaOr0 (addAllCounter hmacToy st0 "hits" [5, 3]) "counter" "hits" = 8
    ∧ getOp (addAllCounter hmacToy st0 "hits" [5, 3]) "counter" "hits" = .ok "8" := by
  have h := counter_accumulation hmacToy st0 "hits" [5, 3] (by decide) (by decide)
  refine ⟨h.1.trans (by decide), ?_⟩
  rw [h.2 (by decide)]
  rfl

/-- C9: calling the public `Add` directly with type gauge accumulates: with
a prior value it adds the converted input to it, with no prior value the
input becomes the value (and a missing entry is created first); meanwhile
`Update` with type gauge always routes to `Set`, never to `Add`. -/
theorem gauge_add_reachable (hmacS : String → String → List Nat) (st : MemoryStorage)
    (n : String) (x : Rat) (hn : n ≠ "") :
    (addOp hmacS none st "gauge" n (GoValue.f x)).snd = none
    ∧ valueFound (addOp hmacS none st "gauge" n (GoValue.f x)).fst "gauge" n
        = some ((valueFound st "gauge" n).getD 0 + x)
    ∧ ∀ (sv : Option Err) (v : GoValue),
        updateOp hmacS sv st "gauge" n v = setOp hmacS sv st "gauge" n v := by
  have h := add_gauge_step hmacS st n x hn
  refine ⟨h.1, h.2, ?_⟩
  intro sv v
  unfold updateOp
  rw [if_neg hn]
  exact rfl

/-- Gauge store with one entry `("gauge", "temp")` holding value 1, used by
concrete examples. -/
def stG : MemoryStorage :=
  { metrics := [{ ID := "temp", MType := "gauge", Delta := none, Value := some 1, Hash := "" }],
    cfg := cfg0 }

/-- Witness for C9: adding 2 to a gauge holding 1 yields 3 through `Add`,
and `Update` on the same arguments goes through `Set`. -/
theorem gauge_add_reachable_witness :
    valueFound (addOp hmacToy none stG "gauge" "temp" (GoValue.f 2)).fst "gauge" "temp" = some 3
    ∧ updateOp hmacToy none stG "gauge" "temp" (GoValue.f 2)
        = setOp hmacToy none stG "gauge" "temp" (GoValue.f 2) := by
  have h := gauge_add_reachable hmacToy stG "temp" 2 (by decide)
  exact ⟨h.2.1.trans (by with_unfolding_all decide), h.2.2 none (GoValue.f 2)⟩

theorem updateJSON_ok (hmacS : String → String → List Nat) (sv : Option Err)
    (st : MemoryStorage) (m : Metric) :
    updateJSON hmacS sv st (.ok m) =
      (if st.cfg.SecretKey = "" then dispatchMetric hmacS sv st m
      else
        match hexDecode m.Hash with
        | none => (st, some Err.InvalidSignature)
        | some hash =>
          if (signatureMetric hmacS m st.cfg.SecretKey).fst = hash then
            dispatchMetric hmacS sv st m
          else (st, some Err.InvalidSignature)) := rfl

/-- C5: with a non-empty key, `UpdateJSON` gates the dispatch on the
signature: malformed hex in the payload's hash, or a decoded hash different
from the recomputed code, short-circuit with `InvalidSignature` and leave
the store untouched; a matching hash proceeds to the ordinary dispatch; and
with an empty key the result never depends on the hash field at all. -/
theorem updateJSON_signature_gate (hmacS : String → String → List Nat) (sv : Option Err)
    (st : MemoryStorage) (m : Metric) :
    (st.cfg.SecretKey ≠ "" → hexDecode m.Hash = none →
        updateJSON hmacS sv st (.ok m) = (st, some .InvalidSignature))
    ∧ (∀ bs, st.cfg.SecretKey ≠ "" → hexDecode m.Hash = some bs →
        bs ≠ (signatureMetric hmacS m st.cfg.SecretKey).fst →
        updateJSON hmacS sv st (.ok m) = (st, some .InvalidSignature))
    ∧ (st.cfg.SecretKey ≠ "" →
        hexDecode m.Hash = some (signatureMetric hmacS m st.cfg.SecretKey).fst →
        updateJSON hmacS sv st (.ok m) = dispatchMetric hmacS sv st m)
    ∧ (st.cfg.SecretKey = "" → ∀ h1 h2 : String,
        updateJSON hmacS sv st (.ok { m with Hash := h1 })
          = updateJSON hmacS sv st (.ok { m with Hash := h2 })) := by
  refine ⟨?_, ?_, ?_, ?_⟩
  · intro hk hx
    rw [updateJSON_ok, if_neg hk, hx]
  · intro bs hk hx hne
    rw [updateJSON_ok, if_neg hk, hx]
    show (if (signatureMetric hmacS m st.cfg.SecretKey).fst = bs then dispatchMetric hmacS sv st m
      else (st, some Err.InvalidSignature)) = (st, some Err.InvalidSignature)
    rw [if_neg (fun hh => hne hh.symm)]
  · intro hk hx
    rw [updateJSON_ok, if_neg hk, hx]
    show (if (signatureMetric hmacS m st.cfg.SecretKey).fst
          = (signatureMetric hmacS m st.cfg.SecretKey).fst then dispatchMetric hmacS sv st m
      else (st, some Err.InvalidSignature)) = dispatchMetric hmacS sv st m
    rw [if_pos rfl]
  · intro hk h1 h2
    rw [updateJSON_ok, updateJSON_ok]
    show (if st.cfg.SecretKey = "" then dispatchMetric hmacS sv st { m with Hash := h1 } else _)
      = (if st.cfg.SecretKey = "" then dispatchMetric hmacS sv st { m with Hash := h2 } else _)
    rw [if_pos hk, if_pos hk]
    exact rfl

/-- Gauge metric with value 1 and a hash field that is not valid hex. -/
def mBadHex : Metric :=
  { ID := "x", MType := "gauge", Delta := none, Value := some 1, Hash := "zz" }

/-- Gauge metric with value 1 and a well-formed hash that matches no code. -/
def mMismatch : Metric :=
  { ID := "x", MType := "gauge", Delta := none, Value := some 1, Hash := "00" }

/-- Witness for C5: under key "k", a malformed-hex hash and a mismatching
hash both yield `InvalidSignature` with the store unchanged. -/
theorem updateJSON_signature_gate_witness :
    updateJSON hmacToy none stK (.ok mBadHex) = (stK, some .InvalidSignature)
    ∧ updateJSON hmacToy none stK (.ok mMismatch) = (stK, some .InvalidSignature) := by
  have h1 := (updateJSON_signature_gate hmacToy none stK mBadHex).1 (by decide) rfl
  have h2 := (updateJSON_signature_gate hmacToy none stK mMismatch).2.1 [0] (by decide) rfl
    (by with_unfolding_all decide)
  exact ⟨h1, h2⟩

/-- C10: with a non-empty key, a metric that lacks the field needed to
compute its signature and carries an empty hash string passes the signature
comparison (the recomputation error is only logged and the empty code
equals the empty decoded hash), so the call reaches the dispatch and fails
there with `InvalidValue`, not `InvalidSignature`. -/
theorem empty_hash_signature_bypass (hmacS : String → String → List Nat) (sv : Option Err)
    (st : MemoryStorage) (m : Metric) (hk : st.cfg.SecretKey ≠ "") (hh : m.Hash = "")
    (hm : (m.MType = "gauge" ∧ m.Value = none) ∨ (m.MType = "counter" ∧ m.Delta = none)) :
    updateJSON hmacS sv st (.ok m) = (st, some .InvalidValue) := by
  have hc : canonicalString m = .error .InvalidValue := by
    unfold canonicalString
    rcases hm with ⟨ht, hv⟩ | ⟨ht, hv⟩
    · rw [ht, hv]; exact rfl
    · rw [ht, hv]; exact rfl
  have hsig : (signatureMetric hmacS m st.cfg.SecretKey).fst = [] := by
    unfold signatureMetric
    rw [if_neg hk, hc]
  have hdisp : dispatchMetric hmacS sv st m = (st, some .InvalidValue) := by
    unfold dispatchMetric
    rcases hm with ⟨ht, hv⟩ | ⟨ht, hv⟩
    · rw [ht, hv]; exact rfl
    · rw [ht, hv]; exact rfl
  rw [updateJSON_ok, if_neg hk, hh, show hexDecode "" = some ([] : List Nat) from rfl]
  show (if (signatureMetric hmacS m st.cfg.SecretKey).fst = [] then dispatchMetric hmacS sv st m
    else (st, some Err.InvalidSignature)) = (st, some Err.InvalidValue)
  rw [if_pos hsig, hdisp]

/-- Witness for C10: a gauge metric with no value and empty hash, under key
"k", fails with `InvalidValue`. -/
theorem empty_hash_signature_bypass_witness :
    updateJSON hmacToy none stK
        (.ok { ID := "x", MType := "gauge", Delta := none, Value := none, Hash := "" })
      = (stK, some .InvalidValue) :=
  empty_hash_signature_bypass hmacToy none stK
    { ID := "x", MType := "gauge", Delta := none, Value := none, Hash := "" }
    (by decide) rfl (.inl ⟨rfl, rfl⟩)

theorem setOp_gauge_def (hmacS : String → String → List Nat) (sv : Option Err)
    (st : MemoryStorage) (n : String) (v : GoValue) :
    setOp hmacS sv st "gauge" n v =
      (match ToFloat64 v with
      | .error e => ({ st with metrics := (locateOrCreate st.metrics "gauge" n).2 }, some e)
      | .ok x =>
        finishWrite hmacS sv st
          (updAt (locateOrCreate st.metrics "gauge" n).2 (locateOrCreate st.metrics "gauge" n).1
            (setValUpd x))
          (locateOrCreate st.metrics "gauge" n).1) := rfl

theorem setOp_counter_def (hmacS : String → String → List Nat) (sv : Option Err)
    (st : MemoryStorage) (n : String) (v : GoValue) :
    setOp hmacS sv st "counter" n v =
      (match ToInt64 v with
      | .error e => ({ st with metrics := (locateOrCreate st.metrics "counter" n).2 }, some e)
      | .ok x =>
        finishWrite hmacS sv st
          (updAt (locateOrCreate st.metrics "counter" n).2 (locateOrCreate st.metrics "counter" n).1
            (setDeltaUpd x))
          (locateOrCreate st.metrics "counter" n).1) := rfl

theorem addOp_gauge_def (hmacS : String → String → List Nat) (sv : Option Err)
    (st : MemoryStorage) (n : String) (v : GoValue) :
    addOp hmacS sv st "gauge" n v =
      (match ToFloat64 v with
      | .error e => ({ st with metrics := (locateOrCreate st.metrics "gauge" n).2 }, some e)
      | .ok x =>
        finishWrite hmacS sv st
          (updAt (locateOrCreate st.metrics "gauge" n).2 (locateOrCreate st.metrics "gauge" n).1
            (addValUpd x))
          (locateOrCreate st.metrics "gauge" n).1) := rfl

theorem addOp_counter_def (hmacS : String → String → List Nat) (sv : Option Err)
    (st : MemoryStorage) (n : String) (v : GoValue) :
    addOp hmacS sv st "counter" n v =
      (match ToInt64 v with
      | .error e => ({ st with metrics := (locateOrCreate st.metrics "counter" n).2 }, some e)
      | .ok x =>
        finishWrite hmacS sv st
          (updAt (locateOrCreate st.metrics "counter" n).2 (locateOrCreate st.metrics "counter" n).1
            (addDeltaUpd x))
          (locateOrCreate st.metrics "counter" n).1) := rfl

/-- C7, amended: `Update` rejects an empty name with `InvalidName` before
dispatching, and the internal `MetricIdx` reports `InvalidName` for an
empty id (given a non-empty type); but the public `Get` maps every lookup
failure — the empty-name condition included — to `NotFound`, and `Set`/`Add`
called directly with an empty name do not fail at all: the failed lookup
makes them append a fresh empty-named entry and succeed. -/
theorem empty_name_amended (hmacS : String → String → List Nat) (sv : Option Err)
    (st : MemoryStorage) (t : String) (v : GoValue) (l : List Metric) (q : Rat) :
    updateOp hmacS sv st t "" v = (st, some .InvalidName)
    ∧ (t ≠ "" → metricIdx l t "" = .error .InvalidName)
    ∧ getOp st t "" = .error .NotFound
    ∧ ((setOp hmacS none st "gauge" "" (GoValue.f q)).snd = none
        ∧ (setOp hmacS none st "gauge" "" (GoValue.f q)).fst.metrics.length
            = st.metrics.length + 1
        ∧ ((setOp hmacS none st "gauge" "" (GoValue.f q)).fst.metrics.get?
            st.metrics.length).map Metric.ID = some ""
        ∧ ((setOp hmacS none st "gauge" "" (GoValue.f q)).fst.metrics.get?
            st.metrics.length).map Metric.Value = some (some q))
    ∧ ((addOp hmacS none st "gauge" "" (GoValue.f q)).snd = none
        ∧ (addOp hmacS none st "gauge" "" (GoValue.f q)).fst.metrics.length
            = st.metrics.length + 1
        ∧ ((addOp hmacS none st "gauge" "" (GoValue.f q)).fst.metrics.get?
            st.metrics.length).map Metric.ID = some ""
        ∧ ((addOp hmacS none st "gauge" "" (GoValue.f q)).fst.metrics.get?
            st.metrics.length).map Metric.Value = some (some q)) := by
  have hIdx : metricIdx st.metrics "gauge" "" = .error .InvalidName := by
    unfold metricIdx
    rw [if_neg (by decide : ¬("gauge" = "")), if_pos rfl]
  have hP : locateOrCreate st.metrics "gauge" ""
      = (st.metrics.length, st.metrics ++ [createMetric "gauge" ""]) := by
    unfold locateOrCreate; rw [hIdx]
  refine ⟨rfl, ?_, ?_, ?_, ?_⟩
  · intro ht
    unfold metricIdx
    rw [if_neg ht, if_pos rfl]
  · unfold getOp metricIdx
    by_cases ht : t = ""
    · rw [if_pos ht]
    · rw [if_neg ht, if_pos rfl]
  · have hset : (setOp hmacS none st "gauge" "" (GoValue.f q)).fst.metrics
        = updAt (updAt (st.metrics ++ [createMetric "gauge" ""]) st.metrics.length (setValUpd q))
            st.metrics.length (hashUpd hmacS st.cfg.SecretKey) := by
      rw [setOp_gauge_rat, finishWrite_none, hP]
    have hsnd : (setOp hmacS none st "gauge" "" (GoValue.f q)).snd = none := by
      rw [setOp_gauge_rat, finishWrite_none]
    refine ⟨hsnd, ?_, ?_, ?_⟩
    · rw [hset, updAt_length, updAt_length, List.length_append]
      rfl
    · rw [hset, get?_updAt_self, get?_updAt_self, List.get?_concat_length]
      rfl
    · rw [hset, get?_updAt_self, get?_updAt_self, List.get?_concat_length]
      rfl
  · have hadd : (addOp hmacS none st "gauge" "" (GoValue.f q)).fst.metrics
        = updAt (updAt (st.metrics ++ [createMetric "gauge" ""]) st.metrics.length (addValUpd q))
            st.metrics.length (hashUpd hmacS st.cfg.SecretKey) := by
      rw [addOp_gauge_rat, finishWrite_none, hP]
    have hsnd : (addOp hmacS none st "gauge" "" (GoValue.f q)).snd = none := by
      rw [addOp_gauge_rat, finishWrite_none]
    refine ⟨hsnd, ?_, ?_, ?_⟩
    · rw [hadd, updAt_length, updAt_length, List.length_append]
      rfl
    · rw [hadd, get?_updAt_self, get?_updAt_self, List.get?_concat_length]
      rfl
    · rw [hadd, get?_updAt_self, get?_updAt_self, List.get?_concat_length]
      rfl

/-- Counterexample for C7: on the empty store, `Get` with an empty name
reports `NotFound` (not `InvalidName`), and `Set` with an empty name
succeeds instead of raising `InvalidName`. -/
theorem empty_name_lookup_cex :
    getOp st0 "gauge" "" = .error .NotFound
    ∧ Err.NotFound ≠ Err.InvalidName
    ∧ (setOp hmacToy none st0 "gauge" "" (GoValue.f 1)).snd = none := by
  refine ⟨rfl, by decide, rfl⟩

/-- Witness for C7's amended statement at concrete inputs: the empty-name
checks, and both `Set` and `Add` on the empty store appending one
empty-named entry holding the converted value. -/
theorem empty_name_amended_witness :
    updateOp hmacToy none st0 "counter" "" (GoValue.i 1) = (st0, some .InvalidName)
    ∧ metricIdx [] "counter" "" = .error .InvalidName
    ∧ (setOp hmacToy none st0 "gauge" "" (GoValue.f 1)).fst.metrics.length = 1
    ∧ ((setOp hmacToy none st0 "gauge" "" (GoValue.f 1)).fst.metrics.get? 0).map Metric.ID
        = some ""
    ∧ (addOp hmacToy none st0 "gauge" "" (GoValue.f 1)).snd = none
    ∧ ((addOp hmacToy none st0 "gauge" "" (GoValue.f 1)).fst.metrics.get? 0).map Metric.Value
        = some (some 1) := by
  have h := empty_name_amended hmacToy none st0 "counter" (GoValue.i 1) ([] : List Metric) 1
  exact ⟨h.1, h.2.1 (by decide), h.2.2.2.1.2.1, h.2.2.2.1.2.2.1, h.2.2.2.2.1, h.2.2.2.2.2.2.2⟩

/-- C2, amended: `Update`'s `InvalidName`/`UnknownType` checks, and
`UpdateFromSigned`'s `InvalidJSON`, `InvalidSignature` (malformed hex or
mismatch) and missing-field `InvalidValue` checks, all fail before any
mutation; and when the target identity already exists, a conversion failure
leaves the mapping unchanged.  But when the identity is unseen, both `Set`
and `Add` append a fresh value-less entry before converting the input, so a
conversion failure leaves that new entry in the mapping (a partial
write). -/
theorem validation_no_mutation_amended (hmacS : String → String → List Nat) (sv : Option Err)
    (st : MemoryStorage) (t n : String) (v : GoValue) (m : Metric) (u : Unit) :
    updateOp hmacS sv st t "" v = (st, some .InvalidName)
    ∧ (n ≠ "" → t ≠ "gauge" → t ≠ "counter" →
        updateOp hmacS sv st t n v = (st, some .UnknownType))
    ∧ updateJSON hmacS sv st (.error u) = (st, some .InvalidJSON)
    ∧ (st.cfg.SecretKey ≠ "" → hexDecode m.Hash = none →
        updateJSON hmacS sv st (.ok m) = (st, some .InvalidSignature))
    ∧ (∀ bs, st.cfg.SecretKey ≠ "" → hexDecode m.Hash = some bs →
        bs ≠ (signatureMetric hmacS m st.cfg.SecretKey).fst →
        updateJSON hmacS sv st (.ok m) = (st, some .InvalidSignature))
    ∧ ((m.MType = "gauge" ∧ m.Value = none) ∨ (m.MType = "counter" ∧ m.Delta = none) →
        dispatchMetric hmacS sv st m = (st, some .InvalidValue))
    ∧ (∀ i e, metricIdx st.metrics "gauge" n = .ok i → ToFloat64 v = .error e →
        setOp hmacS sv st "gauge" n v = (st, some e)
        ∧ addOp hmacS sv st "gauge" n v = (st, some e))
    ∧ (∀ i e, metricIdx st.metrics "counter" n = .ok i → ToInt64 v = .error e →
        setOp hmacS sv st "counter" n v = (st, some e)
        ∧ addOp hmacS sv st "counter" n v = (st, some e))
    ∧ (∀ e2 e, metricIdx st.metrics "gauge" n = .error e2 → ToFloat64 v = .error e →
        setOp hmacS sv st "gauge" n v
          = ({ st with metrics := st.metrics ++ [createMetric "gauge" n] }, some e)
        ∧ addOp hmacS sv st "gauge" n v
          = ({ st with metrics := st.metrics ++ [createMetric "gauge" n] }, some e))
    ∧ (∀ e2 e, metricIdx st.metrics "counter" n = .error e2 → ToInt64 v = .error e →
        setOp hmacS sv st "counter" n v
          = ({ st with metrics := st.metrics ++ [createMetric "counter" n] }, some e)
        ∧ addOp hmacS sv st "counter" n v
          = ({ st with metrics := st.metrics ++ [createMetric "counter" n] }, some e)) := by
  refine ⟨rfl, ?_, rfl, ?_, ?_, ?_, ?_, ?_, ?_, ?_⟩
  · intro hn h1 h2
    unfold updateOp
    rw [if_neg hn]
    split
    all_goals first
      | rfl
      | exact absurd rfl h1
      | exact absurd rfl h2
  · intro hk hx
    rw [updateJSON_ok, if_neg hk, hx]
  · intro bs hk hx hne
    rw [updateJSON_ok, if_neg hk, hx]
    show (if (signatureMetric hmacS m st.cfg.SecretKey).fst = bs then dispatchMetric hmacS sv st m
      else (st, some Err.InvalidSignature)) = (st, some Err.InvalidSignature)
    rw [if_neg (fun hh => hne hh.symm)]
  · intro hm
    unfold dispatchMetric
    rcases hm with ⟨ht, hv⟩ | ⟨ht, hv⟩
    · rw [ht, hv]; exact rfl
    · rw [ht, hv]; exact rfl
  · intro i e hIdx hTo
    have hP : locateOrCreate st.metrics "gauge" n = (i, st.metrics) := by
      unfold locateOrCreate; rw [hIdx]
    constructor
    · rw [setOp_gauge_def, hTo]
      show ({ st with metrics := (locateOrCreate st.metrics "gauge" n).2 }, some e) = (st, some e)
      rw [hP]
    · rw [addOp_gauge_def, hTo]
      show ({ st with metrics := (locateOrCreate st.metrics "gauge" n).2 }, some e) = (st, some e)
      rw [hP]
  · intro i e hIdx hTo
    have hP : locateOrCreate st.metrics "counter" n = (i, st.metrics) := by
      unfold locateOrCreate; rw [hIdx]
    constructor
    · rw [setOp_counter_def, hTo]
      show ({ st with metrics := (locateOrCreate st.metrics "counter" n).2 }, some e) = (st, some e)
      rw [hP]
    · rw [addOp_counter_def, hTo]
      show ({ st with metrics := (locateOrCreate st.metrics "counter" n).2 }, some e) = (st, some e)
      rw [hP]
  · intro e2 e hIdx hTo
    have hP : locateOrCreate st.metrics "gauge" n
        = (st.metrics.length, st.metrics ++ [createMetric "gauge" n]) := by
      unfold locateOrCreate; rw [hIdx]
    constructor
    · rw [setOp_gauge_def, hTo]
      show ({ st with metrics := (locateOrCreate st.metrics "gauge" n).2 }, some e)
        = ({ st with metrics := st.metrics ++ [createMetric "gauge" n] }, some e)
      rw [hP]
    · rw [addOp_gauge_def, hTo]
      show ({ st with metrics := (locateOrCreate st.metrics "gauge" n).2 }, some e)
        = ({ st with metrics := st.metrics ++ [createMetric "gauge" n] }, some e)
      rw [hP]
  · intro e2 e hIdx hTo
    have hP : locateOrCreate st.metrics "counter" n
        = (st.metrics.length, st.metrics ++ [createMetric "counter" n]) := by
      unfold locateOrCreate; rw [hIdx]
    constructor
    · rw [setOp_counter_def, hTo]
      show ({ st with metrics := (locateOrCreate st.metrics "counter" n).2 }, some e)
        = ({ st with metrics := st.metrics ++ [createMetric "counter" n] }, some e)
      rw [hP]
    · rw [addOp_counter_def, hTo]
      show ({ st with metrics := (locateOrCreate st.metrics "counter" n).2 }, some e)
        = ({ st with metrics := st.metrics ++ [createMetric "counter" n] }, some e)
      rw [hP]

/-- Counterexample for C2: `Update` of a fresh gauge with the non-numeric
input "abc" fails with `InvalidValue`, yet the mapping has changed — a new
value-less entry for the identity was appended before the conversion was
attempted. -/
theorem set_partial_write_cex :
    updateOp hmacToy none st0 "gauge" "g" (GoValue.str "abc")
      = ({ st0 with metrics := [createMetric "gauge" "g"] }, some .InvalidValue)
    ∧ [createMetric "gauge" "g"] ≠ st0.metrics := by
  exact ⟨rfl, by decide⟩

/-- Store holding one gauge entry `("gauge", "g")` with value 1. -/
def stG1 : MemoryStorage :=
  { metrics := [{ ID := "g", MType := "gauge", Delta := none, Value := some 1, Hash := "" }],
    cfg := cfg0 }

/-- Counter metric without a delta, as deserialized from a payload. -/
def mNoDelta : Metric :=
  { ID := "c", MType := "counter", Delta := none, Value := none, Hash := "" }

/-- Witness for C2's amended statement at concrete inputs: empty name,
unknown type, a bad payload, a mismatching signature and a missing field
all fail without mutation; a conversion failure on an existing identity
leaves the store unchanged; and a conversion failure on an unseen identity
leaves the appended entry behind in both `Set` and `Add`. -/
theorem validation_no_mutation_amended_witness :
    updateOp hmacToy none st0 "gauge" "" (GoValue.i 1) = (st0, some .InvalidName)
    ∧ updateOp hmacToy none st0 "ololo" "g" (GoValue.i 1) = (st0, some .UnknownType)
    ∧ updateJSON hmacToy none st0 (.error ()) = (st0, some .InvalidJSON)
    ∧ updateJSON hmacToy none stK (.ok mMismatch) = (stK, some .InvalidSignature)
    ∧ dispatchMetric hmacToy none st0 mNoDelta = (st0, some .InvalidValue)
    ∧ setOp hmacToy none stG1 "gauge" "g" (GoValue.str "abc") = (stG1, some .InvalidValue)
    ∧ addOp hmacToy none st0 "gauge" "g" (GoValue.str "abc")
        = ({ st0 with metrics := [createMetric "gauge" "g"] }, some .InvalidValue) := by
  have h := validation_no_mutation_amended hmacToy none st0 "gauge" "" (GoValue.i 1) mNoDelta ()
  have h2 := validation_no_mutation_amended hmacToy none st0 "ololo" "g" (GoValue.i 1) mNoDelta ()
  have h3 := validation_no_mutation_amended hmacToy none stG1 "gauge" "g" (GoValue.str "abc")
    mNoDelta ()
  have h4 := validation_no_mutation_amended hmacToy none stK "gauge" "g" (GoValue.i 1)
    mMismatch ()
  have h5 := validation_no_mutation_amended hmacToy none st0 "gauge" "g" (GoValue.str "abc")
    mNoDelta ()
  exact ⟨h.1, h2.2.1 (by decide) (by decide) (by decide), h.2.2.1,
    h4.2.2.2.2.1 [0] (by decide) rfl (by with_unfolding_all decide),
    h.2.2.2.2.2.1 (.inr ⟨rfl, rfl⟩),
    (h3.2.2.2.2.2.2.1 0 Err.InvalidValue rfl rfl).1,
    (h5.2.2.2.2.2.2.2.2.1 Err.NotFound Err.InvalidValue rfl rfl).2⟩

/-- C8: `Restore` tolerates bad lines but not a bad file.  An unreadable or
absent file makes `Restore` return the open error to the caller (with the
slice already cleared); a readable file never produces an error, and a line
that fails to decode is skipped without affecting how the surrounding
well-formed lines are applied. -/
theorem restore_bad_line_tolerance (st : MemoryStorage)
    (pre post lines : List (Option Metric)) :
    restoreOp st none = ({ st with metrics := [] }, some .FileError)
    ∧ (restoreOp st (some lines)).snd = none
    ∧ restoreOp st (some (pre ++ none :: post)) = restoreOp st (some (pre ++ post)) := by
  refine ⟨rfl, rfl, ?_⟩
  have hfold : (pre ++ none :: post).foldl restoreStep ([] : List Metric)
      = (pre ++ post).foldl restoreStep [] := by
    rw [List.foldl_append, List.foldl_append]
    exact rfl
  show (({ metrics := (pre ++ none :: post).foldl restoreStep [], cfg := st.cfg }
      : MemoryStorage), (none : Option Err))
    = ({ metrics := (pre ++ post).foldl restoreStep [], cfg := st.cfg }, none)
  rw [hfold]

/-- C1, amended: `Restore` first resets the in-memory slice to empty, so
its result never depends on the pre-seeded entries (which are therefore
discarded, not merged), and running it twice on the same file equals
running it once.  Within one file the merge described by the claim does
hold between lines: a line whose identity matches an already-decoded entry
overwrites only that entry's `Delta`/`Value` (hash, identity and position
untouched, no entry added), and a line with an unseen identity is
appended. -/
theorem restore_merge_amended (st1 st2 : MemoryStorage) (file : Option (List (Option Metric)))
    (ls : List (Option Metric)) (acc : List Metric) (m old : Metric) (i : Nat) :
    (restoreOp st1 file).fst.metrics = (restoreOp st2 file).fst.metrics
    ∧ restoreOp (restoreOp st1 (some ls)).fst (some ls) = restoreOp st1 (some ls)
    ∧ (metricIdx acc m.MType m.ID = .ok i → acc.get? i = some old →
        (restoreStep acc (some m)).length = acc.length
        ∧ (restoreStep acc (some m)).get? i = some (mergeUpd m old)
        ∧ (mergeUpd m old).Hash = old.Hash
        ∧ (mergeUpd m old).ID = old.ID
        ∧ (mergeUpd m old).MType = old.MType
        ∧ ∀ j, j ≠ i → (restoreStep acc (some m)).get? j = acc.get? j)
    ∧ (metricIdx acc m.MType m.ID = .error .NotFound → restoreStep acc (some m) = acc ++ [m]) := by
  refine ⟨?_, rfl, ?_, ?_⟩
  · cases file with
    | none => rfl
    | some ls2 => rfl
  · intro h1 h2
    have hstep : restoreStep acc (some m) = updAt acc i (mergeUpd m) := by
      show (match metricIdx acc m.MType m.ID with
        | .ok i2 => updAt acc i2 (mergeUpd m)
        | .error e => if e = Err.NotFound then acc ++ [m] else acc) = updAt acc i (mergeUpd m)
      rw [h1]
    refine ⟨by rw [hstep, updAt_length], ?_, rfl, rfl, rfl, ?_⟩
    · rw [hstep, get?_updAt_self, h2]
      rfl
    · intro j hj
      rw [hstep, get?_updAt_ne _ _ _ _ hj]
  · intro h1
    show (match metricIdx acc m.MType m.ID with
      | .ok i2 => updAt acc i2 (mergeUpd m)
      | .error e => if e = Err.NotFound then acc ++ [m] else acc) = acc ++ [m]
    rw [h1]
    exact rfl

/-- Pre-seeded store holding the counter `("counter", "c")` with delta 1. -/
def stPre : MemoryStorage :=
  { metrics := [{ ID := "c", MType := "counter", Delta := some 1, Value := none, Hash := "" }],
    cfg := cfg0 }

/-- Gauge metric `("gauge", "x")` with value 2, as decoded from a file line. -/
def mLine : Metric :=
  { ID := "x", MType := "gauge", Delta := none, Value := some 2, Hash := "bb" }

/-- Counterexample for C1: the pre-seeded counter `("counter", "c")` is
present before `Restore`; after restoring a file whose only line is an
unrelated gauge, the counter entry is gone — `Restore` discarded the
pre-seeded state instead of merging with it. -/
theorem restore_clears_preseed_cex :
    metricIdx stPre.metrics "counter" "c" = .ok 0
    ∧ (restoreOp stPre (some [some mLine])).fst.metrics = [mLine]
    ∧ metricIdx (restoreOp stPre (some [some mLine])).fst.metrics "counter" "c"
        = .error .NotFound := by
  exact ⟨rfl, rfl, rfl⟩

/-- Metric `("gauge", "x")` value 1 with hash "aa", an already-decoded entry. -/
def mOld : Metric :=
  { ID := "x", MType := "gauge", Delta := none, Value := some 1, Hash := "aa" }

/-- Witness for C1's amended statement: a duplicate-identity line overwrites
only value/delta — the stored hash "aa" survives — and an unseen identity is
appended. -/
theorem restore_merge_amended_witness :
    (restoreStep [mOld] (some mLine)).get? 0
      = some { ID := "x", MType := "gauge", Delta := none, Value := some 2, Hash := "aa" }
    ∧ restoreStep [] (some mOld) = [mOld] := by
  have h3 := (restore_merge_amended st0 st0 none [] [mOld] mLine mOld 0).2.2.1 rfl rfl
  have h4 := (restore_merge_amended st0 st0 none [] [] mOld mOld 0).2.2.2 rfl
  exact ⟨h3.2.1.trans (by with_unfolding_all rfl), h4⟩

/-- The canonical string the spec's Signer section prescribes:
`name + ":" + type + ":" + value-or-delta` with the gauge value rendered as
a full-precision floating decimal (a decimal string denoting exactly the
stored value).  Kept side by side with `canonicalString`, which is
translated from the source. -/
def canonicalSpec (m : Metric) : Except Err String :=
  match m.MType with
  | "counter" =>
    match m.Delta with
    | none => .error .InvalidValue
    | some d => .ok (m.ID ++ ":" ++ m.MType ++ ":" ++ toString d)
  | "gauge" =>
    match m.Value with
    | none => .error .InvalidValue
    | some v => .ok (m.ID ++ ":" ++ m.MType ++ ":" ++ decimalExact v)
  | _ => .error .UnknownType

/-- Gauge metric holding the float64-exact value 2^(-20). -/
def mPrec : Metric :=
  { ID := "x", MType := "gauge", Delta := none, Value := some (1 / 1048576), Hash := "" }

/-- Counterexample for C3: for the gauge value 2^(-20) (exactly
representable as a float64), the source formats the canonical string with
Go's `%f` — six fixed fractional digits — yielding "x:gauge:0.000001",
while the full-precision decimal of the value is
"0.00000095367431640625"; the rounded text denotes 1/1000000, not the
stored value, so the canonical representation is not full-precision. -/
theorem canonical_gauge_precision_cex :
    canonicalString mPrec = .ok "x:gauge:0.000001"
    ∧ canonicalSpec mPrec = .ok "x:gauge:0.00000095367431640625"
    ∧ ("x:gauge:0.000001" : String) ≠ "x:gauge:0.00000095367431640625"
    ∧ parseDec "0.000001" = some (1 / 1000000 : Rat)
    ∧ (1 / 1000000 : Rat) ≠ (1 / 1048576 : Rat) := by
  refine ⟨?_, ?_, by decide, ?_, by with_unfolding_all decide⟩
  · with_unfolding_all rfl
  · with_unfolding_all rfl
  · with_unfolding_all rfl

/-- C3, amended: the canonical representation over which the keyed code is
computed is `name + ":" + type + ":" + delta` for counters with the delta
in base 10, and `name + ":" + type + ":" + value` for gauges with the value
formatted by Go's `%f` — fixed-point with exactly six fractional digits
(not scientific notation, but rounded rather than full-precision) — for
every metric with the relevant field present and every non-empty key. -/
theorem canonical_representation_amended (hmacS : String → String → List Nat) (m : Metric)
    (key : String) (d : Int) (v : Rat) (hk : key ≠ "") :
    (m.MType = "counter" → m.Delta = some d →
        signatureMetric hmacS m key
          = (hmacS key (m.ID ++ ":" ++ m.MType ++ ":" ++ toString d), none))
    ∧ (m.MType = "gauge" → m.Value = some v →
        signatureMetric hmacS m key
          = (hmacS key (m.ID ++ ":" ++ m.MType ++ ":" ++ goFormatF6 v), none)) := by
  constructor
  · intro ht hd
    have hc : canonicalString m = .ok (m.ID ++ ":" ++ m.MType ++ ":" ++ toString d) := by
      unfold canonicalString
      rw [ht, hd]
      exact rfl
    unfold signatureMetric
    rw [if_neg hk, hc]
  · intro ht hv
    have hc : canonicalString m = .ok (m.ID ++ ":" ++ m.MType ++ ":" ++ goFormatF6 v) := by
      unfold canonicalString
      rw [ht, hv]
      exact rfl
    unfold signatureMetric
    rw [if_neg hk, hc]

/-- Witness for C3's amended statement: concrete canonical strings for a
counter with delta 8 and a gauge with value 1/2 under key "k". -/
theorem canonical_representation_amended_witness :
    signatureMetric hmacToy
        { ID := "hits", MType := "counter", Delta := some 8, Value := none, Hash := "" } "k"
      = (hmacToy "k" "hits:counter:8", none)
    ∧ signatureMetric hmacToy
        { ID := "temp", MType := "gauge", Delta := none, Value := some (1 / 2), Hash := "" } "k"
      = (hmacToy "k" "temp:gauge:0.500000", none) := by
  have h1 := (canonical_representation_amended hmacToy
    { ID := "hits", MType := "counter", Delta := some 8, Value := none, Hash := "" }
    "k" 8 0 (by decide)).1 rfl rfl
  have h2 := (canonical_representation_amended hmacToy
    { ID := "temp", MType := "gauge", Delta := none, Value := some (1 / 2), Hash := "" }
    "k" 0 (1 / 2) (by decide)).2 rfl rfl
  exact ⟨h1.trans (by with_unfolding_all rfl), h2.trans (by with_unfolding_all rfl)⟩

/-- Counterexample for C4: under the schedule read1-read2-write1-write2,
the two racing `Add`s (5 and 3, prior delta 0) of the interleaving model of
the unguarded `*delta += val` leave a final delta of 3 — the first update
is lost — while the claim promises 0 + 5 + 3 = 8 regardless of
interleaving.  Nothing in `Add` takes the store lock, so this interleaving
is possible without external serialization. -/
theorem add_race_lost_update_cex :
    raceRun 5 3 [true, false, true, false] 0 = 3
    ∧ (3 : Int) ≠ 0 + 5 + 3 := by
  exact ⟨by decide, by decide⟩

/-- C4, amended: `Set`/`Add`/`Get`/`Save`/`Restore` do not themselves
acquire the store mutex — `MemoryStorage` only exports `Lock`/`Unlock` for
its callers — so two concurrent `Add`s on the same counter are read-modify-
write races; when the two are serialized (the schedule that runs each
thread's read and write back to back, as a caller holding the lock would),
both inputs are reflected: the final delta is the prior delta plus both
inputs, which matches running the source's `Add` twice in sequence. -/
theorem add_serialized_amended (hmacS : String → String → List Nat) (st : MemoryStorage)
    (n : String) (v1 v2 : Int) (hn : n ≠ "") (h1 : inRange64 v1) (h2 : inRange64 v2)
    (hr1 : inRange64 (deltaOr0 st "counter" n + v1))
    (hr2 : inRange64 (deltaOr0 st "counter" n + v1 + v2)) :
    raceRun v1 v2 [true, true, false, false] (deltaOr0 st "counter" n)
        = wrap64 (wrap64 (deltaOr0 st "counter" n + v1) + v2)
    ∧ raceRun v1 v2 [true, true, false, false] (deltaOr0 st "counter" n)
        = deltaOr0 st "counter" n + v1 + v2
    ∧ deltaFound ((addOp hmacS none ((addOp hmacS none st "counter" n (GoValue.i v1)).fst)
          "counter" n (GoValue.i v2)).fst) "counter" n
        = some (deltaOr0 st "counter" n + v1 + v2) := by
  have hserial : raceRun v1 v2 [true, true, false, false] (deltaOr0 st "counter" n)
      = wrap64 (wrap64 (deltaOr0 st "counter" n + v1) + v2) := rfl
  refine ⟨hserial, ?_, ?_⟩
  · rw [hserial, wrap64_id hr1, wrap64_id hr2]
  · have s1 := add_counter_step hmacS st n v1 hn h1
    set st1 := (addOp hmacS none st "counter" n (GoValue.i v1)).fst with hst1
    have hD1 : deltaOr0 st1 "counter" n = deltaOr0 st "counter" n + v1 := by
      unfold deltaOr0
      rw [s1.2, wrap64_id hr1]
      rfl
    have s2 := add_counter_step hmacS st1 n v2 hn h2
    rw [s2.2, hD1, wrap64_id hr2]

/-- Witness for C4's amended statement: serialized 5 then 3 from an empty
store yields 8 both in the interleaving model and through two sequential
`Add`s. -/
theorem add_serialized_amended_witness :
    raceRun 5 3 [true, true, false, false] 0 = 8
    ∧ deltaFound ((addOp hmacToy none ((addOp hmacToy none st0 "counter" "hits"
          (GoValue.i 5)).fst) "counter" "hits" (GoValue.i 3)).fst) "counter" "hits"
        = some 8 := by
  have h := add_serialized_amended hmacToy st0 "hits" 5 3 (by decide) (by decide) (by decide)
    (by decide) (by decide)
  exact ⟨h.2.1.trans (by decide), h.2.2.trans (by decide)⟩
